import Mathlib

/-! Verification of the credential-helper discovery engine of `src/cred.rs`
(the gitcredentials(7) reimplementation in git2-rs).

Rust strings and byte buffers are embedded as lists of natural numbers
(the UTF-8 bytes).  Pure functions of the source become Lean functions;
the external collaborators (the `url` crate's parser, the configuration
lookup service, and the process-execution facility) are passed in as
explicit parameters, since they are not code of this repository.
-/

/-- Rust `str`/`String`/`Vec<u8>` contents, as their UTF-8 byte sequence. -/
abbrev RStr := List Nat

/-- UTF-8 encoding of one Unicode scalar value (standard 1–4 byte form). -/
def encodeChar (n : Nat) : List Nat :=
  if n < 0x80 then [n]
  else if n < 0x800 then [0xC0 + n / 64, 0x80 + n % 64]
  else if n < 0x10000 then [0xE0 + n / 4096, 0x80 + (n / 64) % 64, 0x80 + n % 64]
  else [0xF0 + n / 262144, 0x80 + (n / 4096) % 64, 0x80 + (n / 64) % 64, 0x80 + n % 64]

/-- The UTF-8 bytes of a Lean string literal, used to write Rust string
literals of the source in the embedding. -/
def strBytes (s : String) : RStr :=
  s.data.flatMap fun c => encodeChar c.toNat

/-- Rust `str::starts_with(pat)`: byte-prefix test on the UTF-8 encoding. -/
def rStartsWith (s p : RStr) : Bool :=
  p.isPrefixOf s

/-- Rust byte-slicing `cmd[1..]` on a `str`.  Returns `none` exactly when the
slice panics: on the empty string (byte index 1 out of bounds) or when byte 1
is a UTF-8 continuation byte (not a char boundary, i.e. the first character
occupies more than one byte). -/
def slice1? (s : RStr) : Option RStr :=
  match s with
  | [] => none
  | _ :: rest =>
    match rest with
    | [] => some []
    | b :: _ => if 0x80 ≤ b ∧ b < 0xC0 then none else some rest

/-- `format!("\"{}\"", cmd)` of `add_command`'s absolute-path branch. -/
def quoteCmd (cmd : RStr) : RStr :=
  strBytes "\"" ++ cmd ++ strBytes "\""

/-- The normalization rules of `CredentialHelper::add_command` (src/cred.rs
lines 234–244), producing the command string pushed onto `commands`; `none`
models the panic of the slice `cmd[1..]`.  Note the slice is evaluated (and
can panic) whenever the string starts with none of `!`, `/`, `\`. -/
def normalize_command (cmd : RStr) : Option RStr :=
  if rStartsWith cmd (strBytes "!") then some cmd.tail
  else if rStartsWith cmd (strBytes "/") || rStartsWith cmd (strBytes "\\") then
    some (quoteCmd cmd)
  else
    match slice1? cmd with
    | none => none
    | some rest =>
      if rStartsWith rest (strBytes ":\\") then some (quoteCmd cmd)
      else some (strBytes "git credential-" ++ cmd)

/-- The `url::Host` enum of the (external) `url` crate, as matched by
`CredentialHelper::new`. -/
inductive UrlHost
  | domain (s : RStr)
  | ipv6 (s : RStr)

/-- The parts of a parsed URL that `CredentialHelper::new` reads. -/
structure ParsedUrl where
  scheme : RStr
  host : Option UrlHost

/-- The `CredentialHelper` struct of src/cred.rs lines 17–25. -/
structure CredentialHelper where
  username : Option RStr
  protocol : Option RStr
  host : Option RStr
  url : RStr
  commands : List RStr

/-- `CredentialHelper::new` (src/cred.rs lines 148–178).  The URL parser of
the external `url` crate is passed in as `parse`; a parse failure is `none`.
On success the protocol is the scheme and the host is set only for a
`Host::Domain` value; on failure both stay `None`. -/
def CredentialHelper.new (parse : RStr → Option ParsedUrl) (url : RStr) :
    CredentialHelper :=
  let ret : CredentialHelper :=
    { protocol := none, host := none, username := none, url := url,
      commands := [] }
  match parse url with
  | some u =>
    { ret with
      host := match u.host with
              | some (UrlHost.domain s) => some s
              | _ => ret.host
      protocol := some u.scheme }
  | none => ret

/-- The builder method `CredentialHelper::username` (src/cred.rs lines
183–186): `self.username = username.map(|s| s.to_string())`, an
unconditional assignment. -/
def CredentialHelper.withUsername (ch : CredentialHelper)
    (username : Option RStr) : CredentialHelper :=
  { ch with username := username }

/-- `CredentialHelper::exact_key` (src/cred.rs lines 246–248). -/
def CredentialHelper.exact_key (ch : CredentialHelper) (name : RStr) : RStr :=
  strBytes "credential." ++ ch.url ++ strBytes "." ++ name

/-- `CredentialHelper::url_key` (src/cred.rs lines 250–257): present only
when both host and protocol are known. -/
def CredentialHelper.url_key (ch : CredentialHelper) (name : RStr) :
    Option RStr :=
  match ch.host, ch.protocol with
  | some host, some protocol =>
    some (strBytes "credential." ++ protocol ++ strBytes "://" ++ host ++
          strBytes "." ++ name)
  | _, _ => none

/-- `CredentialHelper::config_username` (src/cred.rs lines 204–213).  The
configuration lookup service is `cfg` (`get_str(..).ok()` becomes an
`Option`). -/
def CredentialHelper.config_username (cfg : RStr → Option RStr)
    (ch : CredentialHelper) : CredentialHelper :=
  { ch with
    username :=
      ((cfg (ch.exact_key (strBytes "username"))).orElse fun _ =>
        (ch.url_key (strBytes "username")).bind fun s => cfg s).orElse
        fun _ => cfg (strBytes "credential.username") }

/-- `CredentialHelper::add_command` applied to one optional configured value
(src/cred.rs lines 234–244): `None` is an early return, otherwise the
normalized command is pushed onto `commands`; `none` models the panic. -/
def CredentialHelper.add_command (ch : CredentialHelper) (cmd : Option RStr) :
    Option CredentialHelper :=
  match cmd with
  | none => some ch
  | some cmd =>
    (normalize_command cmd).map fun c =>
      { ch with commands := ch.commands ++ [c] }

/-- `CredentialHelper::config_helper` (src/cred.rs lines 216–228): queries
the exact key, then the URL-pattern key when available, then the global key,
appending every found value's normalized command. -/
def CredentialHelper.config_helper (cfg : RStr → Option RStr)
    (ch : CredentialHelper) : Option CredentialHelper :=
  match ch.add_command (cfg (ch.exact_key (strBytes "helper"))) with
  | none => none
  | some ch =>
    match (match ch.url_key (strBytes "helper") with
           | some key => ch.add_command (cfg key)
           | none => some ch) with
    | none => none
    | some ch => ch.add_command (cfg (strBytes "credential.helper"))

/-- `CredentialHelper::config` (src/cred.rs lines 190–201): the username
lookup runs only when no username is set yet, then helpers are discovered. -/
def CredentialHelper.config (cfg : RStr → Option RStr)
    (ch : CredentialHelper) : Option CredentialHelper :=
  let ch := if ch.username = none then ch.config_username cfg else ch
  ch.config_helper cfg

/-- Validity test of Rust `String::from_utf8`, as a byte-at-a-time state
machine: `expect` is the number of continuation bytes still owed by the
current multi-byte sequence and `lo`/`hi` bound the next byte (the second
byte of a sequence is constrained further after lead bytes `E0`, `ED`,
`F0`, `F4`, excluding overlong forms and surrogates; lead bytes `C0`, `C1`
and `F5`–`FF` are rejected outright). -/
def validUtf8Go (expect lo hi : Nat) : List Nat → Bool
  | [] => expect = 0
  | b :: rest =>
    match expect with
    | 0 =>
      if b < 0x80 then validUtf8Go 0 0 0 rest
      else if 0xC2 ≤ b && b ≤ 0xDF then validUtf8Go 1 0x80 0xBF rest
      else if b = 0xE0 then validUtf8Go 2 0xA0 0xBF rest
      else if b = 0xED then validUtf8Go 2 0x80 0x9F rest
      else if 0xE1 ≤ b && b ≤ 0xEF then validUtf8Go 2 0x80 0xBF rest
      else if b = 0xF0 then validUtf8Go 3 0x90 0xBF rest
      else if b = 0xF4 then validUtf8Go 3 0x80 0x8F rest
      else if 0xF1 ≤ b && b ≤ 0xF3 then validUtf8Go 3 0x80 0xBF rest
      else false
    | n + 1 =>
      if lo ≤ b && b ≤ hi then validUtf8Go n 0x80 0xBF rest else false

/-- Well-formedness of a UTF-8 byte sequence (the `String::from_utf8`
acceptance condition). -/
def validUtf8 (l : List Nat) : Bool :=
  validUtf8Go 0 0 0 l

/-- Rust `String::from_utf8(value.to_vec())` as used by `parse_output`:
the bytes themselves when they are valid UTF-8, `none` otherwise. -/
def from_utf8 (v : RStr) : Option RStr :=
  if validUtf8 v then some v else none

/-- One line's `line.splitn(1, |t| *t == b'=')` of `parse_output`
(split at most once, at the first `=`): the key bytes, and the value bytes
when the line contains a `=` at all. -/
def splitEq : RStr → RStr × Option RStr
  | [] => ([], none)
  | b :: rest =>
    if b = 61 then ([], some rest)
    else
      let (k, v) := splitEq rest
      (b :: k, v)

/-- The body of `parse_output`'s loop for one line: skip a line without `=`
or with a non-UTF-8 value, otherwise assign the value to the slot of a
recognized key (`username` or `password`), ignoring any other key.  The
assignment is unconditional, so a repeated key overwrites. -/
def parse_line_step (acc : Option RStr × Option RStr) (line : RStr) :
    Option RStr × Option RStr :=
  match splitEq line with
  | (_, none) => acc
  | (key, some vb) =>
    match from_utf8 vb with
    | none => acc
    | some value =>
      if key = strBytes "username" then (some value, acc.2)
      else if key = strBytes "password" then (acc.1, some value)
      else acc

/-- `CredentialHelper::parse_output` (src/cred.rs lines 320–339): split the
captured stdout on `\n` and run the per-line step over the lines. -/
def parse_output (output : RStr) : Option RStr × Option RStr :=
  (output.splitOn 10).foldl parse_line_step (none, none)

/-- The `writeln!` calls of `execute_cmd` (src/cred.rs lines 299–313): one
`key=value` line per known field, in the fixed order protocol, host,
username, nothing written for an unknown field. -/
def stdin_lines (protocol host username : Option RStr) : List RStr :=
  (match protocol with
   | some p => [strBytes "protocol=" ++ p]
   | none => []) ++
  (match host with
   | some h => [strBytes "host=" ++ h]
   | none => []) ++
  (match username with
   | some u => [strBytes "username=" ++ u]
   | none => [])

/-- Outcome of one interaction with the process-execution facility:
`Command::spawn` failing, `wait_with_output` failing, or the process
finishing with an exit-status success flag and captured stdout bytes. -/
inductive CmdResult
  | spawnFail
  | waitFail
  | finished (success : Bool) (stdout : RStr)

/-- `format!("{} get", cmd)`: the shell command line handed to `sh -c` by
`execute_cmd` (src/cred.rs lines 291–296). -/
def invocation (cmd : RStr) : RStr :=
  cmd ++ strBytes " get"

/-- `CredentialHelper::execute_cmd` (src/cred.rs lines 285–317).  The
process world is the oracle `env`, fed the `sh -c` command line and the
stdin lines; a spawn failure, wait failure, or non-zero exit yields
`(None, None)`, a successful exit hands stdout to `parse_output`. -/
def execute_cmd (env : RStr → List RStr → CmdResult)
    (protocol host : Option RStr) (cmd : RStr) (username : Option RStr) :
    Option RStr × Option RStr :=
  match env (invocation cmd) (stdin_lines protocol host username) with
  | CmdResult.spawnFail => (none, none)
  | CmdResult.waitFail => (none, none)
  | CmdResult.finished success out =>
    if success then parse_output out else (none, none)

/-- The loop of `CredentialHelper::execute` (src/cred.rs lines 266–275),
instrumented with the list of commands actually invoked: each iteration
runs one command with the current username, adopts a reported username or
password only when that field is still unknown, and breaks as soon as both
are known. -/
def execute_loop (run : RStr → Option RStr → Option RStr × Option RStr) :
    Option RStr → Option RStr → List RStr →
    (Option RStr × Option RStr) × List RStr
  | u, p, [] => ((u, p), [])
  | u, p, cmd :: rest =>
    let r := run cmd u
    let u' := if r.1.isSome && u.isNone then r.1 else u
    let p' := if r.2.isSome && p.isNone then r.2 else p
    if u'.isSome && p'.isSome then ((u', p'), [cmd])
    else
      let res := execute_loop run u' p' rest
      (res.1, cmd :: res.2)

/-- `CredentialHelper::execute` (src/cred.rs lines 263–281): fold the
commands with the pre-seeded username and no password, and return the pair
exactly when both fields ended up known. -/
def CredentialHelper.execute (env : RStr → List RStr → CmdResult)
    (ch : CredentialHelper) : Option (RStr × RStr) :=
  match (execute_loop (fun cmd u => execute_cmd env ch.protocol ch.host cmd u)
          ch.username none ch.commands).1 with
  | (some u, some p) => some (u, p)
  | _ => none

/-- The helper-object state produced by the composition in
`Cred::credential_helper` (src/cred.rs lines 94–107):
`CredentialHelper::new(url).config(config).username(username)`; `none`
models the panic possible inside `add_command`. -/
def credential_helper_state (parse : RStr → Option ParsedUrl)
    (cfg : RStr → Option RStr) (url : RStr) (username : Option RStr) :
    Option CredentialHelper :=
  ((CredentialHelper.new parse url).config cfg).map fun ch =>
    ch.withUsername username

/-- `Cred::credential_helper` end to end: build the state, then execute;
`some` is the discovered pair, `none` the "failed to acquire
username/password" error path. -/
def credential_helper (parse : RStr → Option ParsedUrl)
    (cfg : RStr → Option RStr) (env : RStr → List RStr → CmdResult)
    (url : RStr) (username : Option RStr) : Option (RStr × RStr) :=
  match credential_helper_state parse cfg url username with
  | none => none
  | some ch => ch.execute env

/-! Specification-side definitions, written from the spec's words, to be
compared with the embedded source functions. -/

/-- Modelled on the spec's orchestrator description (§4.6): a pure
first-wins fold over the command list, with no early exit — each step runs
one command with the current username and keeps an already-known field
(`Option.or` is first-biased). -/
def executeSpecFold (run : RStr → Option RStr → Option RStr × Option RStr) :
    Option RStr × Option RStr → List RStr → Option RStr × Option RStr
  | s, [] => s
  | (u, p), cmd :: rest =>
    let r := run cmd u
    executeSpecFold run (Option.or u r.1, Option.or p r.2) rest

/-- The decoded `(key, value)` of one output line, when the line has a `=`
and a UTF-8-valid value. -/
def decodeLine (line : RStr) : Option (RStr × RStr) :=
  match splitEq line with
  | (_, none) => none
  | (key, some vb) => (from_utf8 vb).map fun v => (key, v)

/-- All decoded `(key, value)` pairs of a captured output, in line order. -/
def lineVals (output : RStr) : List (RStr × RStr) :=
  (output.splitOn 10).filterMap decodeLine

/-- The value of the LAST pair carrying `key`, if any (the amended per-key
aggregation rule of the response parser). -/
def lastVal (key : RStr) : List (RStr × RStr) → Option RStr
  | [] => none
  | (k, v) :: rest => Option.or (lastVal key rest) (if k = key then some v else none)

/-- The configured helper values found by `config_helper`'s three queries,
in query order (spec §4.2: exact key, then URL-pattern key when available,
then the global key, collecting ALL matches). -/
def helperValues (cfg : RStr → Option RStr) (ch : CredentialHelper) :
    List RStr :=
  ([cfg (ch.exact_key (strBytes "helper"))] ++
   (match ch.url_key (strBytes "helper") with
    | some key => [cfg key]
    | none => []) ++
   [cfg (strBytes "credential.helper")]).filterMap id

/-- Normalization of a whole list of configured helper values, in order,
with a panic anywhere aborting the run (spec §4.2/§4.3: every found value
is passed independently to the command normalizer and appended). -/
def normalizeAll : List RStr → Option (List RStr)
  | [] => some []
  | v :: rest =>
    match normalize_command v with
    | none => none
    | some c => (normalizeAll rest).map fun cs => c :: cs

/-- A concrete configuration with only the global `credential.username`
set, exercising the caller-seeding step of `Cred::credential_helper`. -/
def c3cfg : RStr → Option RStr := fun k =>
  if k = strBytes "credential.username" then some (strBytes "x") else none

/-! Auxiliary lemmas shared by the claim theorems. -/

/-- The merge of one loop iteration of `execute` ("adopt only when still
unknown") is the first-biased `Option.or`. -/
theorem mergeField_eq_or (x u : Option RStr) :
    (if x.isSome && u.isNone then x else u) = Option.or u x := by
  cases u <;> cases x <;> rfl

/-- Once both fields are known, the loop's resulting pair never changes. -/
theorem execute_loop_fst_of_both (run : RStr → Option RStr → Option RStr × Option RStr)
    {u p : Option RStr} (hu : u.isSome = true) (hp : p.isSome = true)
    (l : List RStr) : (execute_loop run u p l).1 = (u, p) := by
  obtain ⟨a, rfl⟩ := Option.isSome_iff_exists.mp hu
  obtain ⟨b, rfl⟩ := Option.isSome_iff_exists.mp hp
  cases l with
  | nil => rfl
  | cons c rest => simp [execute_loop]

/-- The spec-side fold also never changes a fully known pair. -/
theorem executeSpecFold_of_both (run : RStr → Option RStr → Option RStr × Option RStr)
    (a b : RStr) (l : List RStr) :
    executeSpecFold run (some a, some b) l = (some a, some b) := by
  induction l with
  | nil => rfl
  | cons c rest ih => simpa [executeSpecFold, Option.or] using ih

/-- The pair computed by the source's break-early loop is exactly the
spec-side first-wins fold (the break never changes the outcome, because a
known field is never overwritten). -/
theorem execute_loop_fst_eq_fold
    (run : RStr → Option RStr → Option RStr × Option RStr) (l : List RStr) :
    ∀ u p, (execute_loop run u p l).1 = executeSpecFold run (u, p) l := by
  induction l with
  | nil => intro u p; rfl
  | cons c rest ih =>
    intro u p
    simp only [execute_loop, executeSpecFold, mergeField_eq_or]
    by_cases hb : ((Option.or u (run c u).1).isSome &&
        (Option.or p (run c u).2).isSome) = true
    · rw [if_pos hb]
      have h2 := hb
      simp only [Bool.and_eq_true] at h2
      obtain ⟨hbu, hbp⟩ := h2
      obtain ⟨a, ha⟩ := Option.isSome_iff_exists.mp hbu
      obtain ⟨b, hbb⟩ := Option.isSome_iff_exists.mp hbp
      show (Option.or u (run c u).1, Option.or p (run c u).2) = _
      rw [ha, hbb]
      exact (executeSpecFold_of_both run a b rest).symm
    · rw [if_neg hb]
      exact ih _ _

/-- Claim C8: for every helper invocation, the lines written to the
helper's stdin are one `key=value` line per known field, in the fixed
order `protocol=`, `host=`, `username=`, and an unknown field is omitted
entirely — that is, `stdin_lines` equals the filter-map of the ordered
field triple. -/
theorem c8_stdin_lines_spec (protocol host username : Option RStr) :
    stdin_lines protocol host username =
      [(strBytes "protocol=", protocol), (strBytes "host=", host),
       (strBytes "username=", username)].filterMap
        (fun kv => kv.2.map fun v => kv.1 ++ v) := by
  cases protocol <;> cases host <;> cases username <;> rfl

/-- Claim C5: a spawn failure, a wait/IO failure, or a non-zero exit status
of one helper yields `(None, None)` for that helper (first conjunct), and a
helper replying `(None, None)` does not change the final outcome of the
remaining iteration, so a later helper can still supply the answer (second
conjunct). -/
theorem c5_helper_failure_skipped :
    (∀ (env : RStr → List RStr → CmdResult) (protocol host : Option RStr)
       (cmd : RStr) (username : Option RStr),
      (env (invocation cmd) (stdin_lines protocol host username) =
          CmdResult.spawnFail ∨
       env (invocation cmd) (stdin_lines protocol host username) =
          CmdResult.waitFail ∨
       ∃ out, env (invocation cmd) (stdin_lines protocol host username) =
          CmdResult.finished false out) →
      execute_cmd env protocol host cmd username = (none, none)) ∧
    (∀ (run : RStr → Option RStr → Option RStr × Option RStr)
       (u p : Option RStr) (cmd : RStr) (rest : List RStr),
      run cmd u = (none, none) →
      (execute_loop run u p (cmd :: rest)).1 = (execute_loop run u p rest).1) := by
  constructor
  · intro env protocol host cmd username h
    rcases h with h | h | ⟨out, h⟩ <;> simp [execute_cmd, h]
  · intro run u p cmd rest h
    cases u with
    | some a =>
      cases p with
      | some b =>
        rw [execute_loop_fst_of_both run (u := some a) (p := some b) rfl rfl rest]
        simp [execute_loop, h]
      | none => simp [execute_loop, h]
    | none => simp [execute_loop, h]

/-- Claim C5 witness: a helper that cannot be spawned reports nothing, and
a reply of nothing leaves the iteration over the remaining command
unchanged. -/
theorem c5_witness :
    execute_cmd (fun _ _ => CmdResult.spawnFail) none none (strBytes "c") none =
      (none, none) ∧
    (execute_loop (fun _ _ => ((none : Option RStr), (none : Option RStr)))
        none none (strBytes "c" :: [strBytes "d"])).1 =
      (execute_loop (fun _ _ => ((none : Option RStr), (none : Option RStr)))
        none none [strBytes "d"]).1 :=
  ⟨c5_helper_failure_skipped.1 _ none none _ none (Or.inl rfl),
   c5_helper_failure_skipped.2 _ none none _ _ rfl⟩

/-- Claim C9: the iteration of `execute` short-circuits — if running the
loop on a command prefix already resolves both fields (which can only
happen through the break, given that not both fields were known at entry),
then appending further commands changes nothing: neither the resulting
pair nor the list of commands actually invoked, so the remaining helper
processes are never spawned. -/
theorem c9_short_circuit
    (run : RStr → Option RStr → Option RStr × Option RStr)
    (u p : Option RStr) (l₁ l₂ : List RStr)
    (h0 : ¬(u.isSome = true ∧ p.isSome = true))
    (h1 : ((execute_loop run u p l₁).1.1).isSome = true)
    (h2 : ((execute_loop run u p l₁).1.2).isSome = true) :
    execute_loop run u p (l₁ ++ l₂) = execute_loop run u p l₁ := by
  induction l₁ generalizing u p with
  | nil => exact absurd ⟨h1, h2⟩ h0
  | cons c rest ih =>
    rw [List.cons_append]
    simp only [execute_loop] at h1 h2 ⊢
    by_cases hb : (((if (run c u).1.isSome && u.isNone then (run c u).1 else u).isSome &&
        (if (run c u).2.isSome && p.isNone then (run c u).2 else p).isSome)) = true
    · rw [if_pos hb, if_pos hb]
    · rw [if_neg hb] at h1 h2 ⊢
      rw [if_neg hb]
      have hnb : ¬((if (run c u).1.isSome && u.isNone then (run c u).1 else u).isSome = true ∧
          (if (run c u).2.isSome && p.isNone then (run c u).2 else p).isSome = true) := by
        intro hcontra
        exact hb (by rw [hcontra.1, hcontra.2]; decide)
      rw [ih _ _ hnb h1 h2]

/-- Claim C9 witness: with a first helper that already supplies both
fields, a second configured command is never reached. -/
theorem c9_witness :
    execute_loop (fun _ _ => (some ([1] : RStr), some ([2] : RStr))) none none
      ([[99]] ++ [[100]]) =
    execute_loop (fun _ _ => (some ([1] : RStr), some ([2] : RStr))) none none
      [[99]] :=
  c9_short_circuit _ none none [[99]] [[100]] (by decide) (by decide) (by decide)

/-- Claim C1: `execute` iterates the commands in order and merges replies
first-wins per field — it equals the spec-side fold `executeSpecFold`
(which adopts a helper-reported username/password only when the field is
still unknown, starting from the pre-seeded username and no password), and
returns the pair exactly when both fields end up known (first conjunct).
In particular, with a first (exact-URL) helper replying only a username
and a second (global) helper replying both, the username comes from the
first helper and the password from the second (second conjunct). -/
theorem c1_execute_first_wins :
    (∀ (env : RStr → List RStr → CmdResult) (ch : CredentialHelper),
      ch.execute env =
        (executeSpecFold (fun c u => execute_cmd env ch.protocol ch.host c u)
            (ch.username, none) ch.commands).1.bind fun u =>
          (executeSpecFold (fun c u => execute_cmd env ch.protocol ch.host c u)
            (ch.username, none) ch.commands).2.map fun p => (u, p)) ∧
    (∀ (env : RStr → List RStr → CmdResult) (ch : CredentialHelper)
       (e g : RStr) (cu gu gp : RStr),
      ch.commands = [e, g] → ch.username = none →
      execute_cmd env ch.protocol ch.host e none = (some cu, none) →
      execute_cmd env ch.protocol ch.host g (some cu) = (some gu, some gp) →
      ch.execute env = some (cu, gp)) := by
  constructor
  · intro env ch
    unfold CredentialHelper.execute
    rw [execute_loop_fst_eq_fold]
    rcases executeSpecFold (fun c u => execute_cmd env ch.protocol ch.host c u)
        (ch.username, none) ch.commands with ⟨u?, p?⟩
    cases u? <;> cases p? <;> rfl
  · intro env ch e g cu gu gp hc hu h1 h2
    unfold CredentialHelper.execute
    rw [hc, hu]
    simp [execute_loop, h1, h2]

/-- Claim C1 witness: a two-helper run in which the first helper emits only
`username=c` and the second emits `username=a` and `password=b` yields the
pair `(c, b)`. -/
theorem c1_witness :
    ({ username := none, protocol := none, host := none, url := strBytes "u",
       commands := [strBytes "E", strBytes "G"] } : CredentialHelper).execute
      (fun cmdline _ =>
        if cmdline = invocation (strBytes "E") then
          CmdResult.finished true (strBytes "username=c")
        else CmdResult.finished true (strBytes "username=a\npassword=b")) =
      some (strBytes "c", strBytes "b") :=
  c1_execute_first_wins.2 _ _ (strBytes "E") (strBytes "G") (strBytes "c")
    (strBytes "a") (strBytes "b") rfl rfl (by decide) (by decide)

/-- One parser step, re-expressed through the decoded `(key, value)` of the
line: a line without a decodable value leaves the accumulator alone, a
recognized key overwrites its slot, any other key is ignored. -/
theorem parse_line_step_eq (acc : Option RStr × Option RStr) (l : RStr) :
    parse_line_step acc l =
      match decodeLine l with
      | none => acc
      | some (k, v) =>
        if k = strBytes "username" then (some v, acc.2)
        else if k = strBytes "password" then (acc.1, some v)
        else acc := by
  rcases h : splitEq l with ⟨k, v?⟩
  cases v? with
  | none => simp [parse_line_step, decodeLine, h]
  | some vb =>
    cases hf : from_utf8 vb with
    | none => simp [parse_line_step, decodeLine, h, hf]
    | some v => simp [parse_line_step, decodeLine, h, hf]

/-- The parser's fold over a list of lines computes, per recognized key,
the value of the last line carrying that key (falling back to the
accumulator). -/
theorem parse_fold (lines : List RStr) :
    ∀ acc : Option RStr × Option RStr,
      lines.foldl parse_line_step acc =
        (Option.or (lastVal (strBytes "username") (lines.filterMap decodeLine))
          acc.1,
         Option.or (lastVal (strBytes "password") (lines.filterMap decodeLine))
          acc.2) := by
  induction lines with
  | nil => intro acc; rfl
  | cons l ls ih =>
    intro acc
    rw [List.foldl_cons, ih, parse_line_step_eq]
    rcases hd : decodeLine l with _ | ⟨k, v⟩
    · simp [List.filterMap_cons, hd]
    · rw [List.filterMap_cons, hd]
      have hne : strBytes "username" ≠ strBytes "password" := by decide
      have hne' : strBytes "password" ≠ strBytes "username" := by decide
      by_cases hk : k = strBytes "username"
      · simp [lastVal, hk, hne, Option.or_assoc]
      · by_cases hk2 : k = strBytes "password"
        · simp [lastVal, hk, hk2, hne', Option.or_assoc]
        · simp [lastVal, hk, hk2]

/-- Claim C2 counterexample: within one helper output, a later line
repeating the key `username` DOES replace the earlier value — on
`username=a` followed by `username=b`, `parse_output` returns `b`, not the
first occurrence `a` that the claim predicts. -/
theorem c2_counterexample :
    parse_output (strBytes "username=a\nusername=b") =
      (some (strBytes "b"), none) ∧
    parse_output (strBytes "username=a\nusername=b") ≠
      (some (strBytes "a"), none) := by
  decide

/-- Claim C2 (amended): the response parser recognizes exactly the keys
`username` and `password` (any other key is ignored), and within a single
helper's output the LAST occurrence of each recognized key determines the
returned field value — a later line repeating the key replaces the earlier
value: `parse_output` equals, per field, the last decoded line value
carrying that key. -/
theorem c2_parse_output_last_wins (output : RStr) :
    parse_output output =
      (lastVal (strBytes "username") (lineVals output),
       lastVal (strBytes "password") (lineVals output)) := by
  unfold parse_output lineVals
  rw [parse_fold]
  simp

/-- `add_command` only appends to `commands`; every other field of the
helper object is left unchanged. -/
theorem add_command_preserves (ch : CredentialHelper) (cmd : Option RStr)
    (ch' : CredentialHelper) (h : ch.add_command cmd = some ch') :
    ch'.username = ch.username ∧ ch'.protocol = ch.protocol ∧
    ch'.host = ch.host ∧ ch'.url = ch.url := by
  cases cmd with
  | none =>
    simp [CredentialHelper.add_command] at h
    subst h
    exact ⟨rfl, rfl, rfl, rfl⟩
  | some v =>
    simp [CredentialHelper.add_command] at h
    obtain ⟨c, _, rfl⟩ := h
    exact ⟨rfl, rfl, rfl, rfl⟩

/-- `config_helper`, re-expressed as a chain of `Option.bind` steps over
its three queries. -/
theorem config_helper_eq_bind (cfg : RStr → Option RStr)
    (ch : CredentialHelper) :
    ch.config_helper cfg =
      (ch.add_command (cfg (ch.exact_key (strBytes "helper")))).bind fun ch1 =>
        (match ch1.url_key (strBytes "helper") with
         | some key => ch1.add_command (cfg key)
         | none => some ch1).bind fun ch2 =>
          ch2.add_command (cfg (strBytes "credential.helper")) := by
  unfold CredentialHelper.config_helper
  cases h1 : ch.add_command (cfg (ch.exact_key (strBytes "helper"))) with
  | none => rfl
  | some ch1 =>
    cases hu : ch1.url_key (strBytes "helper") with
    | none => simp [hu]
    | some key =>
      cases h2 : ch1.add_command (cfg key) with
      | none => simp [hu, h2]
      | some ch2 => simp [hu, h2]

/-- `config_helper` never touches the username field. -/
theorem config_helper_preserves_username (cfg : RStr → Option RStr)
    (ch ch' : CredentialHelper) (h : ch.config_helper cfg = some ch') :
    ch'.username = ch.username := by
  rw [config_helper_eq_bind] at h
  rcases h1 : ch.add_command (cfg (ch.exact_key (strBytes "helper"))) with _ | ch1
  · rw [h1] at h; cases h
  · rw [h1] at h
    simp only [Option.bind] at h
    rcases h2 : (match ch1.url_key (strBytes "helper") with
                 | some key => ch1.add_command (cfg key)
                 | none => some ch1) with _ | ch2
    · rw [h2] at h; cases h
    · rw [h2] at h
      simp only [Option.bind] at h
      have e2 : ch2.username = ch1.username := by
        rcases hu : ch1.url_key (strBytes "helper") with _ | key
        · rw [hu] at h2
          cases h2
          rfl
        · rw [hu] at h2
          exact (add_command_preserves _ _ _ h2).1
      rw [(add_command_preserves _ _ _ h).1, e2,
        (add_command_preserves _ _ _ h1).1]

/-- Claim C3 counterexample: with a configuration carrying only the global
`credential.username = x` and a caller passing no username, the config
step sets the username to `x`, but the composed pipeline of
`Cred::credential_helper` — which applies the caller-seeding builder
method AFTER the config step — ends with the username absent: the
already-set username was replaced by a later pipeline step. -/
theorem c3_counterexample :
    ((CredentialHelper.new (fun _ => none) (strBytes "u")).config c3cfg).map
      CredentialHelper.username = some (some (strBytes "x")) ∧
    (credential_helper_state (fun _ => none) c3cfg (strBytes "u") none).map
      CredentialHelper.username = some none := by
  decide

/-- Claim C3 (amended): an already-set username survives construction and
the config step — `config` skips the username lookup when a username is
present and `config_helper` never touches the field, and a freshly
constructed helper has no username; but the caller-seeding builder method
(`username`, embedded as `withUsername`), which `Cred::credential_helper`
applies AFTER the config step, unconditionally replaces the stored
username with the caller's argument — clearing it when the caller passes
none — so in that composition the caller's argument, not the first
writer, determines the username seed. -/
theorem c3_username_overwrite_rules :
    (∀ (cfg : RStr → Option RStr) (ch ch' : CredentialHelper) (u : RStr),
      ch.username = some u → ch.config cfg = some ch' →
      ch'.username = some u) ∧
    (∀ (parse : RStr → Option ParsedUrl) (url : RStr),
      (CredentialHelper.new parse url).username = none) ∧
    (∀ (ch : CredentialHelper) (u : Option RStr),
      (ch.withUsername u).username = u) := by
  refine ⟨?_, ?_, ?_⟩
  · intro cfg ch ch' u hu h
    unfold CredentialHelper.config at h
    rw [if_neg (by simp [hu])] at h
    rw [config_helper_preserves_username cfg ch ch' h, hu]
  · intro parse url
    rcases hp : parse url with _ | pu <;> simp [CredentialHelper.new, hp]
  · intro ch u
    rfl

/-- Claim C3 witness: the config step run on a helper with username `x`
and an empty configuration keeps `x`; a fresh helper has no username; and
the caller-seeding method with no argument clears the field. -/
theorem c3_witness :
    ({ username := some (strBytes "x"), protocol := none, host := none,
       url := strBytes "u", commands := [] } : CredentialHelper).username =
      some (strBytes "x") ∧
    (CredentialHelper.new (fun _ => none) (strBytes "u")).username = none ∧
    (({ username := some (strBytes "x"), protocol := none, host := none,
        url := strBytes "u", commands := [] } : CredentialHelper).withUsername
      none).username = none :=
  ⟨c3_username_overwrite_rules.1 (fun _ => none)
    { username := some (strBytes "x"), protocol := none, host := none,
      url := strBytes "u", commands := [] }
    { username := some (strBytes "x"), protocol := none, host := none,
      url := strBytes "u", commands := [] } (strBytes "x") rfl rfl,
   c3_username_overwrite_rules.2.1 _ _,
   c3_username_overwrite_rules.2.2 _ _⟩

/-- Claim C4 counterexample: the absolute-path check of `add_command` does
not require a drive LETTER — it accepts any single-byte first character
followed by `:\`.  The configured helper `1:\prog` (first character the
digit `1`, not a letter, and not starting with `!`, `/` or `\`) is wrapped
in quotes as a path instead of being treated as the named helper
`git credential-1:\prog` that the claim's third rule prescribes for it. -/
theorem c4_counterexample :
    normalize_command (strBytes "1:\\prog") = some (quoteCmd (strBytes "1:\\prog")) ∧
    normalize_command (strBytes "1:\\prog") ≠
      some (strBytes "git credential-" ++ strBytes "1:\\prog") ∧
    ('1'.isAlpha = false) ∧
    rStartsWith (strBytes "1:\\prog") (strBytes "!") = false ∧
    rStartsWith (strBytes "1:\\prog") (strBytes "/") = false ∧
    rStartsWith (strBytes "1:\\prog") (strBytes "\\") = false := by
  decide

/-- Claim C4 (amended): command normalization applies exactly one of three
mutually exclusive rules, first match winning, where the third pattern of
rule two is byte 1 and byte 2 being `:\` (ANY one-byte first character,
not only a drive letter): a string starting with `!` is invoked as its
remainder directly (`!cmd` runs as `cmd get`), a string starting with `/`
or `\` or whose second and third bytes are `:\` is wrapped in quotes and
invoked as `"cmd" get`, and any other string `foo` is invoked as
`git credential-foo get` (`invocation` appends the ` get` of the `sh -c`
command line; `quoteCmd` wraps in quotes). -/
theorem c4_add_command_rules (cmd : RStr) :
    (rStartsWith cmd (strBytes "!") = true →
      (normalize_command cmd).map invocation = some (invocation cmd.tail)) ∧
    (rStartsWith cmd (strBytes "!") = false →
      (rStartsWith cmd (strBytes "/") = true ∨
       rStartsWith cmd (strBytes "\\") = true ∨
       (∃ rest, slice1? cmd = some rest ∧
         rStartsWith rest (strBytes ":\\") = true)) →
      (normalize_command cmd).map invocation =
        some (invocation (quoteCmd cmd))) ∧
    (rStartsWith cmd (strBytes "!") = false →
      rStartsWith cmd (strBytes "/") = false →
      rStartsWith cmd (strBytes "\\") = false →
      ∀ rest, slice1? cmd = some rest →
        rStartsWith rest (strBytes ":\\") = false →
      (normalize_command cmd).map invocation =
        some (invocation (strBytes "git credential-" ++ cmd))) := by
  refine ⟨?_, ?_, ?_⟩
  · intro h
    simp [normalize_command, h]
  · intro h hdisj
    by_cases hsl : (rStartsWith cmd (strBytes "/") ||
        rStartsWith cmd (strBytes "\\")) = true
    · simp [normalize_command, h, hsl]
    · rcases hdisj with h2 | h2 | ⟨rest, hs, hr⟩
      · simp [h2] at hsl
      · simp [h2] at hsl
      · simp [normalize_command, h, hsl, hs, hr]
  · intro h1 h2 h3 rest hs hr
    simp [normalize_command, h1, h2, h3, hs, hr]

/-- Claim C4 witness: the three rules at concrete inputs — `!x` runs as
`x get`, `/a` as `"/a" get`, `foo` as `git credential-foo get`. -/
theorem c4_witness :
    (normalize_command (strBytes "!x")).map invocation =
      some (invocation (strBytes "!x").tail) ∧
    (normalize_command (strBytes "/a")).map invocation =
      some (invocation (quoteCmd (strBytes "/a"))) ∧
    (normalize_command (strBytes "foo")).map invocation =
      some (invocation (strBytes "git credential-" ++ strBytes "foo")) :=
  ⟨(c4_add_command_rules (strBytes "!x")).1 (by decide),
   (c4_add_command_rules (strBytes "/a")).2.1 (by decide) (Or.inl (by decide)),
   (c4_add_command_rules (strBytes "foo")).2.2 (by decide) (by decide)
     (by decide) (strBytes "oo") (by decide) (by decide)⟩

/-- The slice `cmd[1..]` taken by `add_command` panics on any string whose
second byte is a UTF-8 continuation byte; `normalize_command` then reports
the panic for any first byte on which no earlier rule matched. -/
theorem normalize_command_cont (b0 b1 : Nat) (l : List Nat)
    (hb0 : 0xC0 ≤ b0) (hb1lo : 0x80 ≤ b1) (hb1hi : b1 < 0xC0) :
    normalize_command (b0 :: b1 :: l) = none := by
  have e1 : strBytes "!" = [33] := rfl
  have e2 : strBytes "/" = [47] := rfl
  have e3 : strBytes "\\" = [92] := rfl
  have h1 : rStartsWith (b0 :: b1 :: l) (strBytes "!") = false := by
    rw [e1]; simp [rStartsWith, List.isPrefixOf]; omega
  have h2 : rStartsWith (b0 :: b1 :: l) (strBytes "/") = false := by
    rw [e2]; simp [rStartsWith, List.isPrefixOf]; omega
  have h3 : rStartsWith (b0 :: b1 :: l) (strBytes "\\") = false := by
    rw [e3]; simp [rStartsWith, List.isPrefixOf]; omega
  have hs : slice1? (b0 :: b1 :: l) = none := by
    have hx : 0x80 ≤ b1 ∧ b1 < 0xC0 := ⟨hb1lo, hb1hi⟩
    simp [slice1?, hx]
  simp [normalize_command, h1, h2, h3, hs]

/-- Claim C10: command normalization is not total — on the empty string
the slice `cmd[1..]` panics (byte index 1 out of bounds), on any string
whose first character occupies more than one UTF-8 byte (and hence starts
with none of `!`, `/`, `\`) the slice panics at a non-boundary, and such a
configured helper value aborts helper discovery (`config_helper` propagates
the panic) instead of being treated as a named helper. -/
theorem c10_add_command_panics :
    normalize_command (strBytes "") = none ∧
    (∀ (c : Char) (cs : List Char), 1 < (encodeChar c.toNat).length →
      normalize_command (strBytes (String.mk (c :: cs))) = none) ∧
    (∀ (cfg : RStr → Option RStr) (ch : CredentialHelper) (v : RStr),
      cfg (ch.exact_key (strBytes "helper")) = some v →
      normalize_command v = none →
      ch.config_helper cfg = none) := by
  refine ⟨by decide, ?_, ?_⟩
  · intro c cs h
    have hn : 0x80 ≤ c.toNat := by
      unfold encodeChar at h
      by_cases h1 : c.toNat < 0x80
      · rw [if_pos h1] at h; simp at h
      · omega
    show normalize_command ((c :: cs).flatMap fun ch => encodeChar ch.toNat) = none
    rw [List.flatMap_cons]
    unfold encodeChar
    rw [if_neg (by omega)]
    by_cases h2 : c.toNat < 0x800
    · rw [if_pos h2]
      exact normalize_command_cont _ _ _ (by omega) (by omega)
        (by have := Nat.mod_lt c.toNat (show 0 < 64 by omega); omega)
    · rw [if_neg h2]
      by_cases h3 : c.toNat < 0x10000
      · rw [if_pos h3]
        refine normalize_command_cont _ _ _ (by omega) (by omega) ?_
        have := Nat.mod_lt (c.toNat / 64) (show 0 < 64 by omega)
        omega
      · rw [if_neg h3]
        refine normalize_command_cont _ _ _ (by omega) (by omega) ?_
        have := Nat.mod_lt (c.toNat / 4096) (show 0 < 64 by omega)
        omega
  · intro cfg ch v hv hn
    rw [config_helper_eq_bind, hv]
    simp [CredentialHelper.add_command, hn]

/-- Claim C10 witness: the one-character helper value `é` (two UTF-8
bytes) makes normalization panic, and with it configured under the exact
key, helper discovery aborts. -/
theorem c10_witness :
    normalize_command (strBytes (String.mk ('é' :: []))) = none ∧
    ({ username := none, protocol := none, host := none, url := strBytes "u",
       commands := [] } : CredentialHelper).config_helper
      (fun k => if k = strBytes "credential.u.helper"
                then some (strBytes (String.mk ('é' :: []))) else none) = none :=
  ⟨c10_add_command_panics.2.1 'é' [] (by decide),
   c10_add_command_panics.2.2 _ _ (strBytes (String.mk ('é' :: [])))
     (by decide) (by decide)⟩

/-- `orElse` with a constant fallback is the first-biased `Option.or`. -/
theorem orElse_eq_or (a b : Option RStr) :
    (a.orElse fun _ => b) = Option.or a b := by
  cases a <;> rfl

/-- `url_key` only reads the host and protocol fields, so it is unchanged
by a commands update. -/
theorem url_key_update (ch : CredentialHelper) (cs : List RStr) (name : RStr) :
    ({ ch with commands := cs } : CredentialHelper).url_key name =
      ch.url_key name := rfl

/-- `add_command` on one optional value, through `normalizeAll`. -/
theorem add_command_eq_normalizeAll (ch : CredentialHelper) (v? : Option RStr) :
    ch.add_command v? =
      (normalizeAll v?.toList).map fun cs =>
        { ch with commands := ch.commands ++ cs } := by
  cases v? with
  | none => simp [CredentialHelper.add_command, normalizeAll]
  | some v =>
    cases hn : normalize_command v with
    | none => simp [CredentialHelper.add_command, normalizeAll, hn]
    | some c => simp [CredentialHelper.add_command, normalizeAll, hn]

/-- `normalizeAll` distributes over append. -/
theorem normalizeAll_append (l1 l2 : List RStr) :
    normalizeAll (l1 ++ l2) =
      (normalizeAll l1).bind fun cs1 =>
        (normalizeAll l2).map fun cs2 => cs1 ++ cs2 := by
  induction l1 with
  | nil => simp [normalizeAll]
  | cons v rest ih =>
    cases hn : normalize_command v with
    | none => simp [normalizeAll, hn]
    | some c =>
      rcases hr : normalizeAll rest with _ | csr
      · simp [normalizeAll, hn, ih, hr]
      · rcases hl : normalizeAll l2 with _ | cs2 <;>
          simp [normalizeAll, hn, ih, hr, hl]

/-- The three queried helper values, decomposed as an append of the three
stages. -/
theorem helperValues_eq (cfg : RStr → Option RStr) (ch : CredentialHelper) :
    helperValues cfg ch =
      (cfg (ch.exact_key (strBytes "helper"))).toList ++
      ((match ch.url_key (strBytes "helper") with
        | some key => [cfg key]
        | none => []).filterMap id ++
       (cfg (strBytes "credential.helper")).toList) := by
  unfold helperValues
  rcases cfg (ch.exact_key (strBytes "helper")) with _ | v1 <;>
    rcases cfg (strBytes "credential.helper") with _ | g <;>
      simp [List.filterMap_append]

/-- Claim C6: username resolution queries, in order, the exact key, the
URL-pattern key (which exists exactly when both protocol and host are
known), and the global `credential.username`, first hit winning with
misses falling through (first conjunct, via the first-biased `Option.or`);
the keys are formatted `credential.<url>.<name>` and
`credential.<protocol>://<host>.<name>` (third and fourth conjuncts); and
helper resolution queries the same three keys in the same order but
appends EVERY found value's normalized command to the command list (fifth
conjunct). -/
theorem c6_config_precedence :
    (∀ (cfg : RStr → Option RStr) (ch : CredentialHelper),
      (ch.config_username cfg).username =
        Option.or (cfg (ch.exact_key (strBytes "username")))
          (Option.or ((ch.url_key (strBytes "username")).bind cfg)
            (cfg (strBytes "credential.username")))) ∧
    (∀ (ch : CredentialHelper) (name : RStr),
      (ch.url_key name).isSome = true ↔
        ch.host.isSome = true ∧ ch.protocol.isSome = true) ∧
    (∀ (ch : CredentialHelper) (name : RStr),
      ch.exact_key name =
        strBytes "credential." ++ ch.url ++ strBytes "." ++ name) ∧
    (∀ (ch : CredentialHelper) (name h p : RStr),
      ch.host = some h → ch.protocol = some p →
      ch.url_key name =
        some (strBytes "credential." ++ p ++ strBytes "://" ++ h ++
          strBytes "." ++ name)) ∧
    (∀ (cfg : RStr → Option RStr) (ch : CredentialHelper),
      ch.config_helper cfg =
        (normalizeAll (helperValues cfg ch)).map fun cs =>
          { ch with commands := ch.commands ++ cs }) := by
  refine ⟨?_, ?_, ?_, ?_, ?_⟩
  · intro cfg ch
    show ((cfg (ch.exact_key (strBytes "username"))).orElse fun _ =>
        (ch.url_key (strBytes "username")).bind fun s => cfg s).orElse
        (fun _ => cfg (strBytes "credential.username")) = _
    rw [orElse_eq_or, orElse_eq_or]
    rcases cfg (ch.exact_key (strBytes "username")) with _ | x <;> rfl
  · intro ch name
    cases hh : ch.host <;> cases hp : ch.protocol <;>
      simp [CredentialHelper.url_key, hh, hp]
  · intro ch name
    rfl
  · intro ch name h p hh hp
    simp [CredentialHelper.url_key, hh, hp]
  · intro cfg ch
    rw [config_helper_eq_bind, helperValues_eq, normalizeAll_append,
      add_command_eq_normalizeAll]
    rcases hE : normalizeAll
        (cfg (ch.exact_key (strBytes "helper"))).toList with _ | cs1
    · simp
    · simp only [Option.map, Option.bind, url_key_update]
      rw [normalizeAll_append]
      rcases hu : ch.url_key (strBytes "helper") with _ | key
      · rcases hG : normalizeAll
            (cfg (strBytes "credential.helper")).toList with _ | cs3 <;>
          simp [add_command_eq_normalizeAll, hG, normalizeAll,
            List.append_assoc]
      · rcases hck : cfg key with _ | v2
        · rcases hG : normalizeAll
              (cfg (strBytes "credential.helper")).toList with _ | cs3 <;>
            simp [add_command_eq_normalizeAll, hck, hG, normalizeAll,
              List.append_assoc]
        · rcases hn2 : normalize_command v2 with _ | c2
          · simp [add_command_eq_normalizeAll, hck, hn2, normalizeAll]
          · rcases hG : normalizeAll
                (cfg (strBytes "credential.helper")).toList with _ | cs3 <;>
              simp [add_command_eq_normalizeAll, hck, hn2, hG, normalizeAll,
                List.append_assoc]

/-- Claim C6 witness: the URL-pattern key at a concrete helper object with
protocol `https` and host `example.com`. -/
theorem c6_witness :
    ({ username := none, protocol := some (strBytes "https"),
       host := some (strBytes "example.com"),
       url := strBytes "https://example.com/foo", commands := [] }
       : CredentialHelper).url_key (strBytes "helper") =
      some (strBytes "credential." ++ strBytes "https" ++ strBytes "://" ++
        strBytes "example.com" ++ strBytes "." ++ strBytes "helper") :=
  c6_config_precedence.2.2.2.1 _ (strBytes "helper")
    (strBytes "example.com") (strBytes "https") rfl rfl

/-- Claim C7: for an unparsable URL, construction does not fail — the
helper object has protocol and host both absent (and no username or
commands yet, with the raw URL kept as lookup key) — and discovery still
proceeds: the global `credential.helper` key is still queried, its helper
is normalized into the (otherwise empty, since the exact key misses and
the URL-pattern key is unavailable) command list, and a sole configured
command is always invoked by the execution loop. -/
theorem c7_unparsable_url (parse : RStr → Option ParsedUrl) (url : RStr)
    (hparse : parse url = none) :
    (CredentialHelper.new parse url).protocol = none ∧
    (CredentialHelper.new parse url).host = none ∧
    (CredentialHelper.new parse url).username = none ∧
    (CredentialHelper.new parse url).commands = [] ∧
    (CredentialHelper.new parse url).url = url ∧
    (∀ (cfg : RStr → Option RStr) (g c : RStr),
      cfg ((CredentialHelper.new parse url).exact_key (strBytes "helper")) =
        none →
      cfg (strBytes "credential.helper") = some g →
      normalize_command g = some c →
      (CredentialHelper.new parse url).config_helper cfg =
        some { username := none, protocol := none, host := none, url := url,
               commands := [c] }) ∧
    (∀ (run : RStr → Option RStr → Option RStr × Option RStr)
       (u p : Option RStr) (c : RStr),
      (execute_loop run u p [c]).2 = [c]) := by
  have hnew : CredentialHelper.new parse url =
      { username := none, protocol := none, host := none, url := url,
        commands := [] } := by
    simp [CredentialHelper.new, hparse]
  refine ⟨by rw [hnew], by rw [hnew], by rw [hnew], by rw [hnew],
    by rw [hnew], ?_, ?_⟩
  · intro cfg g c h1 h2 h3
    rw [hnew] at h1 ⊢
    rw [config_helper_eq_bind, h1]
    simp [CredentialHelper.add_command, CredentialHelper.url_key, h2, h3]
  · intro run u p c
    simp only [execute_loop]
    split <;> split <;> split <;> rfl

/-- Claim C7 witness: with a parser that rejects the URL `u` and a
configuration holding only the global helper `!f`, the helper object has
no protocol or host, yet discovery finds and normalizes the global
helper. -/
theorem c7_witness :
    (CredentialHelper.new (fun _ => none) (strBytes "u")).protocol = none ∧
    (CredentialHelper.new (fun _ => none) (strBytes "u")).host = none ∧
    (CredentialHelper.new (fun _ => none) (strBytes "u")).config_helper
      (fun k => if k = strBytes "credential.helper"
                then some (strBytes "!f") else none) =
      some { username := none, protocol := none, host := none,
             url := strBytes "u", commands := [strBytes "f"] } :=
  ⟨(c7_unparsable_url (fun _ => none) (strBytes "u") rfl).1,
   (c7_unparsable_url (fun _ => none) (strBytes "u") rfl).2.1,
   (c7_unparsable_url (fun _ => none) (strBytes "u") rfl).2.2.2.2.2.1 _
     (strBytes "!f") (strBytes "f") (by decide) (by decide) (by decide)⟩
